import Mathlib

/-!
Shallow embedding of the contrail vnsw agent core under verification:

* the flow statistics collector (`FlowStatsCollector` in
  `src/vnsw/agent/oper/vrf.cc`, second translation unit of that file):
  `GetFlowStats`, `GetUpdatedFlowBytes`, `GetUpdatedFlowPackets`,
  `ShouldBeAged`, `SourceIpOverride`, `FlowExport` and the aging pass
  `Run`;
* the VRF table (`VrfTable` / `VrfEntry` in the same file): delete timer
  lifecycle, `Input`, `CanNotify` and `DeleteActor::MayDelete`;
* the agent task-policy installation (`Agent::SetAgentTaskPolicy`).

Machine integers are modelled as `Nat` with explicit `% 2^w` at the
operations where C truncation can occur.  Collaborators whose code is not
part of this repository (the kernel flow table, `FlowTable::DeleteRevFlow`,
`LifetimeActor`, timers, the interface table) are modelled from the spec
and marked as such in their doc comments.
-/

namespace Contrail

/-- 2^64, the modulus of the C `uint64_t` arithmetic used by the flow
statistics code. -/
def U64 : Nat := 18446744073709551616

/-- C `uint64_t` subtraction `a - b` (wrap-around modular arithmetic). -/
def wsub64 (a b : Nat) : Nat := (a % U64 + (U64 - b % U64)) % U64

/-- The 5-tuple flow key of a `FlowEntry`
(`key = (src_ip, dst_ip, proto, src_port, dst_port)`). -/
structure FlowKey where
  src_ipv4 : Nat
  dst_ipv4 : Nat
  protocol : Nat
  src_port : Nat
  dst_port : Nat
deriving DecidableEq

/-- Modelled from the spec: the flow table requires a total order on its
keys (`flowtable.h` is not part of this repository); lexicographic order
on the 5-tuple. -/
def FlowKey.lt (a b : FlowKey) : Bool :=
  if a.src_ipv4 ≠ b.src_ipv4 then decide (a.src_ipv4 < b.src_ipv4)
  else if a.dst_ipv4 ≠ b.dst_ipv4 then decide (a.dst_ipv4 < b.dst_ipv4)
  else if a.protocol ≠ b.protocol then decide (a.protocol < b.protocol)
  else if a.src_port ≠ b.src_port then decide (a.src_port < b.src_port)
  else decide (a.dst_port < b.dst_port)

/-- The mutable per-flow payload `FlowEntry::data` (`FlowData`): 64-bit
cumulative counters, VN names, the reverse-flow link (modelled by the
reverse flow's key; the C++ pointer target is recovered by lookup in the
flow-entry map) and the ingress flag. -/
structure FlowData where
  bytes : Nat
  packets : Nat
  source_vn : String
  dest_vn : String
  reverse_flow : Option FlowKey
  ingress : Bool
deriving DecidableEq

/-- Userspace shadow of a kernel flow (`FlowEntry`). -/
structure FlowEntry where
  key : FlowKey
  data : FlowData
  flow_uuid : String
  egress_uuid : String
  intf_in : Nat
  setup_time : Nat
  teardown_time : Nat
  last_modified_time : Nat
  flow_handle : Nat
  nat : Bool
  local_flow : Bool
  short_flow : Bool
deriving DecidableEq

/-- The per-index kernel flow record `vr_flow_entry::fe_stats`
(`vr_types.h`, external interface): `flow_bytes`/`flow_packets` are
32-bit, the overflow counters are 16 and 8 bit wide, both read through a
`uint16_t` parameter when composed. -/
structure VrFlowStats where
  flow_bytes : Nat
  flow_packets : Nat
  flow_bytes_oflow : Nat
  flow_packets_oflow : Nat
deriving DecidableEq

/-- `FlowStatsCollector::GetFlowStats` (vrf.cc 865-870):
`flow_stats = (uint64_t) oflow_data << (sizeof(uint32_t) * 8); flow_stats |= data;`.
`oflow_data` is a `uint16_t` and `data` a `uint32_t`, so no operation can
overflow 64 bits. -/
def GetFlowStats (oflow_data data : Nat) : Nat :=
  (oflow_data <<< (4 * 8)) ||| data

/-- `FlowStatsCollector::GetUpdatedFlowBytes` (vrf.cc 872-880).  The
`+=` on the held high bits is `uint64_t` arithmetic, hence the `% U64`. -/
def GetUpdatedFlowBytes (fe : FlowEntry) (k_flow_bytes : Nat) : Nat :=
  let oflow_bytes := 0xffff000000000000 &&& fe.data.bytes
  let old_bytes := 0x0000ffffffffffff &&& fe.data.bytes
  let oflow_bytes :=
    if old_bytes > k_flow_bytes then (oflow_bytes + 0x0001000000000000) % U64
    else oflow_bytes
  oflow_bytes ||| k_flow_bytes

/-- `FlowStatsCollector::GetUpdatedFlowPackets` (vrf.cc 882-890). -/
def GetUpdatedFlowPackets (fe : FlowEntry) (k_flow_pkts : Nat) : Nat :=
  let oflow_pkts := 0xffffff0000000000 &&& fe.data.packets
  let old_pkts := 0x000000ffffffffff &&& fe.data.packets
  let oflow_pkts :=
    if old_pkts > k_flow_pkts then (oflow_pkts + 0x0000010000000000) % U64
    else oflow_pkts
  oflow_pkts ||| k_flow_pkts

/-- `FlowStatsCollector::ShouldBeAged` (vrf.cc 848-863).  The collector
member `GetFlowAgeTime()` is passed as the `flow_age_time` parameter. -/
def ShouldBeAged (entry : FlowEntry) (k_flow : Option VrFlowStats)
    (curr_time flow_age_time : Nat) : Bool :=
  let skip : Bool :=
    match k_flow with
    | some k =>
        decide (entry.data.bytes < k.flow_bytes) &&
        decide (entry.data.packets < k.flow_packets)
    | none => false
  if skip then false
  else
    let diff_time := wsub64 curr_time entry.last_modified_time
    if diff_time < flow_age_time then false else true

section BitHelpers

/-- Adding a value below `2^n` to a multiple of `2^n` is the same as
OR-ing it in. -/
theorem lor_mul_pow_eq_add {b n : Nat} (a : Nat) (hb : b < 2 ^ n) :
    (a * 2 ^ n) ||| b = a * 2 ^ n + b := by
  rw [Nat.mul_comm a (2 ^ n)]
  exact (Nat.mul_add_lt_is_or hb a).symm

/-- AND with a low mask `2^n - 1` extracts the low `n` bits. -/
theorem land_low_mask (b n : Nat) : (2 ^ n - 1) &&& b = b % 2 ^ n := by
  apply Nat.eq_of_testBit_eq
  intro i
  simp [Nat.testBit_and, Nat.testBit_mod_two_pow, Bool.and_comm]

/-- AND with a high mask `(2^m - 1) * 2^n` of a value below `2^(n+m)`
keeps the high `m` bits in place: the result is `b / 2^n * 2^n`. -/
theorem land_high_mask {b n m : Nat} (hb : b < 2 ^ (n + m)) :
    ((2 ^ m - 1) * 2 ^ n) &&& b = b / 2 ^ n * 2 ^ n := by
  apply Nat.eq_of_testBit_eq
  intro i
  have hdm : b / 2 ^ n * 2 ^ n = (b >>> n) <<< n := by
    rw [Nat.shiftLeft_eq, Nat.shiftRight_eq_div_pow]
  have hml : (2 ^ m - 1) * 2 ^ n = (2 ^ m - 1) <<< n := by
    rw [Nat.shiftLeft_eq]
  rw [hdm, hml, Nat.testBit_and, Nat.testBit_shiftLeft, Nat.testBit_shiftLeft,
    Nat.testBit_shiftRight, Nat.testBit_two_pow_sub_one]
  by_cases hni : n ≤ i
  · have hi : n + (i - n) = i := by omega
    rw [hi]
    by_cases him : i - n < m
    · simp [hni, him]
    · have hbi : b.testBit i = false := by
        apply Nat.testBit_lt_two_pow
        calc b < 2 ^ (n + m) := hb
          _ ≤ 2 ^ i := Nat.pow_le_pow_right (by omega) (by omega)
      simp [hbi, him]
  · simp [hni]

/-- Wrap-around increment of the held high bits: adding one carry unit
`2^n` to `t * 2^n` modulo `2^(n+m)` increments `t` modulo `2^m`. -/
theorem carry_mod (t n m : Nat) :
    (t * 2 ^ n + 2 ^ n) % 2 ^ (n + m) = (t + 1) % 2 ^ m * 2 ^ n := by
  have h1 : t * 2 ^ n + 2 ^ n = (t + 1) * 2 ^ n := by ring
  have h2 : 2 ^ (n + m) = 2 ^ m * 2 ^ n := by rw [Nat.pow_add]; ring
  rw [h1, h2, Nat.mul_mod_mul_right]

end BitHelpers

section CounterCharacterization

/-- U64 as a power of two. -/
theorem U64_eq : U64 = 2 ^ 64 := by norm_num [U64]

/-- Arithmetic characterization of `GetUpdatedFlowBytes`: the high 16
bits of the stored 64-bit counter are kept (incremented by one carry unit
`2^48`, wrapping with the `uint64_t` arithmetic, when the stored low 48
bits exceed the composed kernel value), and the kernel value is OR-ed
into the low 48 bits. -/
theorem getUpdatedFlowBytes_char (fe : FlowEntry) (k : Nat)
    (hb : fe.data.bytes < 2 ^ 64) (hk : k < 2 ^ 48) :
    GetUpdatedFlowBytes fe k =
      (if k < fe.data.bytes % 2 ^ 48
       then (fe.data.bytes / 2 ^ 48 + 1) % 2 ^ 16 * 2 ^ 48
       else fe.data.bytes / 2 ^ 48 * 2 ^ 48) + k := by
  unfold GetUpdatedFlowBytes
  have hmask : (0xffff000000000000 : Nat) = (2 ^ 16 - 1) * 2 ^ 48 := by norm_num
  have hlow : (0x0000ffffffffffff : Nat) = 2 ^ 48 - 1 := by norm_num
  have hcarry : (0x0001000000000000 : Nat) = 2 ^ 48 := by norm_num
  have hb' : fe.data.bytes < 2 ^ (48 + 16) := hb
  rw [hmask, hlow, hcarry, land_high_mask hb', land_low_mask, U64_eq]
  show (if k < fe.data.bytes % 2 ^ 48
        then (fe.data.bytes / 2 ^ 48 * 2 ^ 48 + 2 ^ 48) % 2 ^ 64
        else fe.data.bytes / 2 ^ 48 * 2 ^ 48) ||| k = _
  by_cases h : k < fe.data.bytes % 2 ^ 48
  · rw [if_pos h, if_pos h]
    have h64 : (2 : Nat) ^ 64 = 2 ^ (48 + 16) := by norm_num
    rw [h64, carry_mod]
    exact lor_mul_pow_eq_add _ hk
  · rw [if_neg h, if_neg h]
    exact lor_mul_pow_eq_add _ hk

/-- Arithmetic characterization of `GetUpdatedFlowPackets`: high 24 bits
kept, carry unit `2^40`, kernel value OR-ed into the low 40 bits. -/
theorem getUpdatedFlowPackets_char (fe : FlowEntry) (k : Nat)
    (hp : fe.data.packets < 2 ^ 64) (hk : k < 2 ^ 40) :
    GetUpdatedFlowPackets fe k =
      (if k < fe.data.packets % 2 ^ 40
       then (fe.data.packets / 2 ^ 40 + 1) % 2 ^ 24 * 2 ^ 40
       else fe.data.packets / 2 ^ 40 * 2 ^ 40) + k := by
  unfold GetUpdatedFlowPackets
  have hmask : (0xffffff0000000000 : Nat) = (2 ^ 24 - 1) * 2 ^ 40 := by norm_num
  have hlow : (0x000000ffffffffff : Nat) = 2 ^ 40 - 1 := by norm_num
  have hcarry : (0x0000010000000000 : Nat) = 2 ^ 40 := by norm_num
  have hp' : fe.data.packets < 2 ^ (40 + 24) := hp
  rw [hmask, hlow, hcarry, land_high_mask hp', land_low_mask, U64_eq]
  show (if k < fe.data.packets % 2 ^ 40
        then (fe.data.packets / 2 ^ 40 * 2 ^ 40 + 2 ^ 40) % 2 ^ 64
        else fe.data.packets / 2 ^ 40 * 2 ^ 40) ||| k = _
  by_cases h : k < fe.data.packets % 2 ^ 40
  · rw [if_pos h, if_pos h]
    have h64 : (2 : Nat) ^ 64 = 2 ^ (40 + 24) := by norm_num
    rw [h64, carry_mod]
    exact lor_mul_pow_eq_add _ hk
  · rw [if_neg h, if_neg h]
    exact lor_mul_pow_eq_add _ hk

end CounterCharacterization

section ArithHelpers

/-- `wsub64` agrees with truncated subtraction when no wrap occurs. -/
theorem wsub64_eq_sub {a b : Nat} (hba : b ≤ a) (ha : a < 2 ^ 64) :
    wsub64 a b = a - b := by
  have h64 : (2 : Nat) ^ 64 = U64 := by norm_num [U64]
  unfold wsub64
  unfold U64
  rw [h64] at ha
  unfold U64 at ha
  omega

/-- Arithmetic form of `GetFlowStats`: the 16-bit overflow word is placed
at bit 32 above the 32-bit counter. -/
theorem getFlowStats_eq (o d : Nat) (hd : d < 2 ^ 32) :
    GetFlowStats o d = o * 2 ^ 32 + d := by
  unfold GetFlowStats
  have h : o <<< (4 * 8) = o * 2 ^ 32 := by rw [Nat.shiftLeft_eq]
  rw [h]
  exact lor_mul_pow_eq_add o hd

/-- The composed kernel byte counter fits in 48 bits. -/
theorem getFlowStats_lt_48 {o d : Nat} (ho : o < 2 ^ 16) (hd : d < 2 ^ 32) :
    GetFlowStats o d < 2 ^ 48 := by
  rw [getFlowStats_eq o d hd]
  omega

/-- The composed kernel packet counter fits in 40 bits (the kernel packet
overflow counter is only 8 bits wide). -/
theorem getFlowStats_lt_40 {o d : Nat} (ho : o < 2 ^ 8) (hd : d < 2 ^ 32) :
    GetFlowStats o d < 2 ^ 40 := by
  rw [getFlowStats_eq o d hd]
  omega

end ArithHelpers

/-- The stats-reconciliation step of `FlowStatsCollector::Run`
(vrf.cc 954-973) applied to one visited, not deleted entry whose kernel
record is present: when the stored 64-bit byte counter differs from the
raw 32-bit kernel byte counter, compose the kernel counters with
`GetFlowStats`, fold them into the stored counters with
`GetUpdatedFlowBytes` / `GetUpdatedFlowPackets` and stamp
`last_modified_time`.  The inter-VN stats aggregation and the
`FlowExport` call are side effects that do not modify the flow entry map
and are modelled separately (`FlowExport` below). -/
def reconcileEntry (fe : FlowEntry) (kf : VrFlowStats) (curr_time : Nat) :
    FlowEntry :=
  if fe.data.bytes ≠ kf.flow_bytes then
    let flow_bytes := GetFlowStats kf.flow_bytes_oflow kf.flow_bytes
    let flow_packets := GetFlowStats kf.flow_packets_oflow kf.flow_packets
    let flow_bytes := GetUpdatedFlowBytes fe flow_bytes
    let flow_packets := GetUpdatedFlowPackets fe flow_packets
    { fe with
      data := { fe.data with bytes := flow_bytes, packets := flow_packets },
      last_modified_time := curr_time }
  else fe

section ExampleFlows

/-- A concrete flow key used by counterexamples and witnesses. -/
def key0 : FlowKey := ⟨0, 0, 0, 0, 0⟩

/-- A concrete baseline flow entry used by counterexamples and
witnesses. -/
def baseFlow : FlowEntry :=
  { key := key0
    data := { bytes := 0, packets := 0, source_vn := "vn1", dest_vn := "vn2"
              reverse_flow := none, ingress := true }
    flow_uuid := "uuid-fwd"
    egress_uuid := "uuid-egr"
    intf_in := 1
    setup_time := 0
    teardown_time := 0
    last_modified_time := 0
    flow_handle := 0
    nat := false
    local_flow := false
    short_flow := false }

/-- The spec's overflow scenario: stored bytes `0x0000_ffff_ffff_ff00`. -/
def overflowExampleFlow : FlowEntry :=
  { baseFlow with data := { baseFlow.data with bytes := 0x0000ffffffffff00 } }

/-- A flow whose stored byte counter sits just past a 64-bit wrap
boundary: the held high 16 bits are all ones. -/
def wrapFlow : FlowEntry :=
  { baseFlow with
    data := { baseFlow.data with bytes := 0xffff000000000001, packets := 5 } }

/-- A kernel record whose counters are all zero (for instance a reused
kernel slot). -/
def zeroStats : VrFlowStats := ⟨0, 0, 0, 0⟩

end ExampleFlows

/-- Claim C1 (counterexample): the kernel packet counters are NOT
composed as `(flow_packets_oflow << 40) | flow_packets`.
`FlowStatsCollector::Run` composes both byte and packet counters with
`GetFlowStats` (vrf.cc 958-961), which shifts the overflow word left by
`sizeof(uint32_t) * 8 = 32` bits; at `oflow = 1, pkts = 0` the composed
value is `2^32`, not `2^40`. -/
theorem getFlowStats_packet_shift40_counterexample :
    GetFlowStats 1 0 ≠ (1 <<< 40) ||| 0 := by decide

/-- Claim C1 (amended): the aging pass composes the 64-bit kernel
counters as `kernel_bytes = (flow_bytes_oflow << 32) | flow_bytes` and
`kernel_pkts = (flow_packets_oflow << 32) | flow_packets` — both overflow
counters are shifted left by 32 bits (`GetFlowStats`, the single helper
`Run` applies to bytes and packets alike), equivalently `oflow * 2^32 +
data` for an in-range 32-bit counter. -/
theorem getFlowStats_compose_shift32 :
    ∀ o d : Nat, d < 2 ^ 32 →
      GetFlowStats o d = (o <<< 32) ||| d ∧ GetFlowStats o d = o * 2 ^ 32 + d := by
  intro o d hd
  constructor
  · rfl
  · exact getFlowStats_eq o d hd

/-- Witness for `getFlowStats_compose_shift32` at `oflow = 3`,
`data = 7`. -/
theorem getFlowStats_compose_shift32_witness :
    (7 : Nat) < 2 ^ 32 ∧
      (GetFlowStats 3 7 = (3 <<< 32) ||| 7 ∧ GetFlowStats 3 7 = 3 * 2 ^ 32 + 7) :=
  ⟨by norm_num, getFlowStats_compose_shift32 3 7 (by norm_num)⟩

/-- Modelled from the spec (for comparison with the code, claim C2): the
aging-eligibility predicate in the spec's words — "if the kernel record
exists and the kernel's `bytes` or `packets` have regressed below our
userspace counters … skip aging.  Otherwise, if `now - last_modified_time
>= age_time`, the flow is aging-eligible." -/
def specShouldBeAged (entry : FlowEntry) (k_flow : Option VrFlowStats)
    (curr_time flow_age_time : Nat) : Bool :=
  let reused : Bool :=
    match k_flow with
    | some k =>
        decide (k.flow_bytes < entry.data.bytes) ||
        decide (k.flow_packets < entry.data.packets)
    | none => false
  if reused then false
  else decide (flow_age_time ≤ wsub64 curr_time entry.last_modified_time)

/-- A flow with non-zero stored counters, for the C2 counterexample. -/
def agedFlow : FlowEntry :=
  { baseFlow with data := { baseFlow.data with bytes := 10, packets := 10 } }

/-- A kernel record strictly behind `agedFlow`'s stored counters. -/
def behindStats : VrFlowStats := ⟨5, 5, 0, 0⟩

/-- Claim C2 (counterexample): `ShouldBeAged` does not compute the
claimed predicate.  With stored counters `10/10`, a kernel record at
`5/5` (kernel "regressed below" userspace on both counters) and an idle
time beyond the age time, the claim says the flow is not aging-eligible
(kernel slot reused), but the code returns `true`: it only skips aging
when the kernel counters have ADVANCED beyond the stored ones on both
counters (`entry->data.bytes < k_flow->fe_stats.flow_bytes &&
entry->data.packets < k_flow->fe_stats.flow_packets`, vrf.cc 852-853). -/
theorem shouldBeAged_spec_counterexample :
    ShouldBeAged agedFlow (some behindStats) 100 50 = true ∧
      specShouldBeAged agedFlow (some behindStats) 100 50 = false := by
  constructor
  · decide
  · decide

/-- Claim C2 (amended): for a flow visited at time `now`, if the kernel
record exists and the kernel's bytes AND packets have both advanced
strictly beyond the entry's stored userspace counters, the flow is not
aging-eligible (fresh traffic was seen); otherwise the flow is
aging-eligible exactly when `now - last_modified_time >= age_time`.
This is the predicate `ShouldBeAged` computes. -/
theorem shouldBeAged_characterization (e : FlowEntry)
    (k : Option VrFlowStats) (curr age : Nat)
    (h1 : e.last_modified_time ≤ curr) (h2 : curr < 2 ^ 64) :
    ShouldBeAged e k curr age = true ↔
      (¬ (∃ kf, k = some kf ∧ e.data.bytes < kf.flow_bytes ∧
            e.data.packets < kf.flow_packets) ∧
        age ≤ curr - e.last_modified_time) := by
  cases k with
  | none =>
      simp only [ShouldBeAged, wsub64_eq_sub h1 h2]
      constructor
      · intro h
        refine ⟨by simp, ?_⟩
        by_cases hlt : curr - e.last_modified_time < age
        · simp [hlt] at h
        · omega
      · intro ⟨_, hage⟩
        have : ¬ curr - e.last_modified_time < age := by omega
        simp [this]
  | some kf =>
      simp only [ShouldBeAged, wsub64_eq_sub h1 h2]
      by_cases hskip : e.data.bytes < kf.flow_bytes ∧ e.data.packets < kf.flow_packets
      · simp only [decide_eq_true_eq] at *
        have : (decide (e.data.bytes < kf.flow_bytes) &&
            decide (e.data.packets < kf.flow_packets)) = true := by
          simp [hskip.1, hskip.2]
        rw [this]
        simp only [if_true]
        constructor
        · intro h; exact absurd h (by simp)
        · intro ⟨hno, _⟩
          exact absurd ⟨kf, rfl, hskip.1, hskip.2⟩ hno
      · have : (decide (e.data.bytes < kf.flow_bytes) &&
            decide (e.data.packets < kf.flow_packets)) = false := by
          rcases Decidable.not_and_iff_or_not.mp hskip with h | h <;> simp [h]
        rw [this]
        simp only [Bool.false_eq_true, if_false]
        constructor
        · intro h
          refine ⟨?_, ?_⟩
          · rintro ⟨kg, hkg, hb, hp⟩
            cases Option.some.inj hkg
            exact hskip ⟨hb, hp⟩
          · by_cases hlt : curr - e.last_modified_time < age
            · simp [hlt] at h
            · omega
        · intro ⟨_, hage⟩
          have : ¬ curr - e.last_modified_time < age := by omega
          simp [this]

/-- Witness for `shouldBeAged_characterization` on `agedFlow` with no
kernel record at time 100 and age time 50. -/
theorem shouldBeAged_characterization_witness :
    (agedFlow.last_modified_time ≤ 100 ∧ (100 : Nat) < 2 ^ 64) ∧
      (ShouldBeAged agedFlow none 100 50 = true ↔
        (¬ (∃ kf, (none : Option VrFlowStats) = some kf ∧
              agedFlow.data.bytes < kf.flow_bytes ∧
              agedFlow.data.packets < kf.flow_packets) ∧
          50 ≤ 100 - agedFlow.last_modified_time)) :=
  ⟨⟨by decide, by norm_num⟩,
    shouldBeAged_characterization agedFlow none 100 50 (by decide) (by norm_num)⟩

/-- Claim C3: `GetUpdatedFlowBytes` keeps the high 16 bits of the stored
64-bit byte counter and `GetUpdatedFlowPackets` the high 24 bits of the
stored packet counter; when the stored low bits (low 48 for bytes, low 40
for packets) exceed the composed kernel value, the held high bits are
incremented by one carry unit (`2^48` resp. `2^40`, in the wrap-around
`uint64_t` arithmetic) before the kernel value is OR-ed in.  In
particular for stored bytes `0x0000_ffff_ffff_ff00` and composed kernel
value `0x10` the result is `0x0001_0000_0000_0010`. -/
theorem updatedFlowCounters_keep_high_bits :
    (∀ (fe : FlowEntry) (k : Nat), fe.data.bytes < 2 ^ 64 → k < 2 ^ 48 →
      GetUpdatedFlowBytes fe k =
        (if k < fe.data.bytes % 2 ^ 48
         then (fe.data.bytes / 2 ^ 48 + 1) % 2 ^ 16 * 2 ^ 48
         else fe.data.bytes / 2 ^ 48 * 2 ^ 48) + k) ∧
    (∀ (fe : FlowEntry) (k : Nat), fe.data.packets < 2 ^ 64 → k < 2 ^ 40 →
      GetUpdatedFlowPackets fe k =
        (if k < fe.data.packets % 2 ^ 40
         then (fe.data.packets / 2 ^ 40 + 1) % 2 ^ 24 * 2 ^ 40
         else fe.data.packets / 2 ^ 40 * 2 ^ 40) + k) ∧
    GetUpdatedFlowBytes overflowExampleFlow 0x10 = 0x0001000000000010 :=
  ⟨getUpdatedFlowBytes_char, getUpdatedFlowPackets_char, by decide⟩

/-- Witness for `updatedFlowCounters_keep_high_bits` on the spec's
overflow scenario. -/
theorem updatedFlowCounters_keep_high_bits_witness :
    (overflowExampleFlow.data.bytes < 2 ^ 64 ∧ (0x10 : Nat) < 2 ^ 48) ∧
      GetUpdatedFlowBytes overflowExampleFlow 0x10 =
        (if (0x10 : Nat) < overflowExampleFlow.data.bytes % 2 ^ 48
         then (overflowExampleFlow.data.bytes / 2 ^ 48 + 1) % 2 ^ 16 * 2 ^ 48
         else overflowExampleFlow.data.bytes / 2 ^ 48 * 2 ^ 48) + 0x10 :=
  ⟨⟨by decide, by norm_num⟩,
    updatedFlowCounters_keep_high_bits.1 overflowExampleFlow 0x10
      (by decide) (by norm_num)⟩

/-- Claim C4 (counterexample): the userspace counters are NOT
non-decreasing for all stored values: when the stored byte counter's held
high 16 bits are all ones (`bytes = 0xffff_0000_0000_0001`) and the
composed kernel value regresses to 0, the carry wraps the 64-bit counter
to 0, which is strictly below the previous value. -/
theorem reconcile_wraparound_counterexample :
    (reconcileEntry wrapFlow zeroStats 7).data.bytes < wrapFlow.data.bytes := by
  decide

/-- Claim C4 (amended): for every flow entry that is not deleted, a stats
reconciliation leaves `entry.data.bytes` and `entry.data.packets` greater
than or equal to their previous values — for all stored values and
in-range kernel inputs, PROVIDED the reconciliation does not overflow the
64-bit counter itself (the held high bits are not already at their
maximum when a carry is triggered; at that point the counter wraps modulo
`2^64`). -/
theorem reconcile_counters_monotonic (fe : FlowEntry) (kf : VrFlowStats)
    (now : Nat)
    (hb : fe.data.bytes < 2 ^ 64) (hp : fe.data.packets < 2 ^ 64)
    (hob : kf.flow_bytes_oflow < 2 ^ 16) (hdb : kf.flow_bytes < 2 ^ 32)
    (hop : kf.flow_packets_oflow < 2 ^ 8) (hdp : kf.flow_packets < 2 ^ 32)
    (hwb : fe.data.bytes / 2 ^ 48 + 1 < 2 ^ 16 ∨
      ¬ GetFlowStats kf.flow_bytes_oflow kf.flow_bytes < fe.data.bytes % 2 ^ 48)
    (hwp : fe.data.packets / 2 ^ 40 + 1 < 2 ^ 24 ∨
      ¬ GetFlowStats kf.flow_packets_oflow kf.flow_packets <
          fe.data.packets % 2 ^ 40) :
    fe.data.bytes ≤ (reconcileEntry fe kf now).data.bytes ∧
      fe.data.packets ≤ (reconcileEntry fe kf now).data.packets := by
  unfold reconcileEntry
  by_cases hg : fe.data.bytes ≠ kf.flow_bytes
  · rw [if_pos hg]
    have hkb := getFlowStats_lt_48 hob hdb
    have hkp := getFlowStats_lt_40 hop hdp
    constructor
    · show fe.data.bytes ≤
        GetUpdatedFlowBytes fe (GetFlowStats kf.flow_bytes_oflow kf.flow_bytes)
      rw [getUpdatedFlowBytes_char fe _ hb hkb]
      have hmod := Nat.div_add_mod fe.data.bytes (2 ^ 48)
      have hmlt : fe.data.bytes % 2 ^ 48 < 2 ^ 48 := Nat.mod_lt _ (by norm_num)
      by_cases hc : GetFlowStats kf.flow_bytes_oflow kf.flow_bytes <
          fe.data.bytes % 2 ^ 48
      · rw [if_pos hc]
        rcases hwb with hsm | hno
        · have : (fe.data.bytes / 2 ^ 48 + 1) % 2 ^ 16 =
              fe.data.bytes / 2 ^ 48 + 1 := Nat.mod_eq_of_lt hsm
          rw [this]
          omega
        · exact absurd hc hno
      · rw [if_neg hc]
        omega
    · show fe.data.packets ≤
        GetUpdatedFlowPackets fe (GetFlowStats kf.flow_packets_oflow kf.flow_packets)
      rw [getUpdatedFlowPackets_char fe _ hp hkp]
      have hmod := Nat.div_add_mod fe.data.packets (2 ^ 40)
      have hmlt : fe.data.packets % 2 ^ 40 < 2 ^ 40 := Nat.mod_lt _ (by norm_num)
      by_cases hc : GetFlowStats kf.flow_packets_oflow kf.flow_packets <
          fe.data.packets % 2 ^ 40
      · rw [if_pos hc]
        rcases hwp with hsm | hno
        · have : (fe.data.packets / 2 ^ 40 + 1) % 2 ^ 24 =
              fe.data.packets / 2 ^ 40 + 1 := Nat.mod_eq_of_lt hsm
          rw [this]
          omega
        · exact absurd hc hno
      · rw [if_neg hc]
        omega
  · rw [if_neg hg]
    exact ⟨Nat.le_refl _, Nat.le_refl _⟩

/-- Witness for `reconcile_counters_monotonic` on `agedFlow` (stored
`10/10`) against a fresh kernel record `50/3` with overflow words `1`. -/
theorem reconcile_counters_monotonic_witness :
    (agedFlow.data.bytes < 2 ^ 64 ∧ agedFlow.data.packets < 2 ^ 64 ∧
      (1 : Nat) < 2 ^ 16 ∧ (50 : Nat) < 2 ^ 32 ∧ (1 : Nat) < 2 ^ 8 ∧
      (3 : Nat) < 2 ^ 32) ∧
    (agedFlow.data.bytes ≤
        (reconcileEntry agedFlow ⟨50, 3, 1, 1⟩ 11).data.bytes ∧
      agedFlow.data.packets ≤
        (reconcileEntry agedFlow ⟨50, 3, 1, 1⟩ 11).data.packets) :=
  ⟨⟨by decide, by decide, by norm_num, by norm_num, by norm_num, by norm_num⟩,
    reconcile_counters_monotonic agedFlow ⟨50, 3, 1, 1⟩ 11
      (by decide) (by decide) (by norm_num) (by norm_num) (by norm_num)
      (by norm_num)
      (Or.inl (by decide))
      (Or.inl (by decide))⟩

section FlowExportModel

/-- `Interface::kInvalidIndex` (interface.h, outside this translation
unit); modelled from the spec: the VM name is resolved "via interface
lookup" only when the flow records a valid input interface. -/
def Interface.kInvalidIndex : Nat := 0xFFFFFFFF

/-- The telemetry record `FlowDataIpv4` consumed by the export sink.
Sandesh fields that `FlowExport` sets only conditionally (`vm`,
`reverse_uuid`, `teardown_time`) are modelled as `Option`;
`direction_ing` is set on every send path before the record is sent. -/
structure FlowDataIpv4 where
  flowuuid : String
  bytes : Nat
  packets : Nat
  diff_bytes : Nat
  diff_packets : Nat
  sourceip : Nat
  destip : Nat
  protocol : Nat
  sport : Nat
  dport : Nat
  sourcevn : String
  destvn : String
  vm : Option String
  reverse_uuid : Option String
  setup_time : Nat
  teardown_time : Option Nat
  direction_ing : Nat
deriving DecidableEq

/-- `FlowStatsCollector::SourceIpOverride` (vrf.cc 773-781): for NAT-ed
ingress flows, replace the exported source IP with the reverse flow's key
destination IP when it differs from the flow's own source IP.  The C++
reads the reverse flow through the `flow->data.reverse_flow` pointer; the
pointer target is passed explicitly as `rev_flow`. -/
def SourceIpOverride (flow : FlowEntry) (rev_flow : Option FlowEntry)
    (s_flow : FlowDataIpv4) : FlowDataIpv4 :=
  match rev_flow with
  | some rf =>
      if flow.nat ∧ s_flow.direction_ing ≠ 0 then
        if flow.key.src_ipv4 ≠ rf.key.dst_ipv4 then
          { s_flow with sourceip := rf.key.dst_ipv4 }
        else s_flow
      else s_flow
  | none => s_flow

/-- `FlowStatsCollector::FlowExport` (vrf.cc 783-846), returning the
records passed to `FLOW_DATA_IPV4_OBJECT_SEND` in send order.  The VM
name resolution through `InterfaceTable::FindInterface` (outside this
translation unit) is abstracted by the `vmLookup` environment, which
yields the bound VM's config name for a VMPORT interface index and `none`
otherwise. -/
def FlowExport (vmLookup : Nat → Option String) (flow : FlowEntry)
    (rev_flow : Option FlowEntry) (diff_bytes diff_pkts : Nat) :
    List FlowDataIpv4 :=
  let s_flow : FlowDataIpv4 :=
    { flowuuid := flow.flow_uuid
      bytes := flow.data.bytes
      packets := flow.data.packets
      diff_bytes := diff_bytes
      diff_packets := diff_pkts
      sourceip := flow.key.src_ipv4
      destip := flow.key.dst_ipv4
      protocol := flow.key.protocol
      sport := flow.key.src_port
      dport := flow.key.dst_port
      sourcevn := flow.data.source_vn
      destvn := flow.data.dest_vn
      vm := if flow.intf_in ≠ Interface.kInvalidIndex then
              vmLookup flow.intf_in
            else none
      reverse_uuid := rev_flow.map (fun rf => rf.flow_uuid)
      setup_time := flow.setup_time
      teardown_time := if flow.teardown_time ≠ 0 then
                         some flow.teardown_time
                       else none
      direction_ing := 0 }
  if flow.local_flow then
    let s_ing := SourceIpOverride flow rev_flow { s_flow with direction_ing := 1 }
    let s_egr := { s_ing with direction_ing := 0, flowuuid := flow.egress_uuid }
    [s_ing, s_egr]
  else if flow.data.ingress then
    [SourceIpOverride flow rev_flow { s_flow with direction_ing := 1 }]
  else
    [{ s_flow with direction_ing := 0 }]

/-- The exported source IP as claim C6 describes it: the reverse flow's
key destination IP when the flow is NAT-ed and that IP differs from the
flow's source IP; the flow's own source IP otherwise. -/
def claimedSourceIp (flow : FlowEntry) (rev_flow : Option FlowEntry) : Nat :=
  match rev_flow with
  | some rf =>
      if flow.nat ∧ flow.key.src_ipv4 ≠ rf.key.dst_ipv4 then rf.key.dst_ipv4
      else flow.key.src_ipv4
  | none => flow.key.src_ipv4

end FlowExportModel

section FlowExportLemmas

/-- `SourceIpOverride` only touches `sourceip`. -/
theorem sourceIpOverride_direction_ing (f : FlowEntry) (r : Option FlowEntry)
    (s : FlowDataIpv4) :
    (SourceIpOverride f r s).direction_ing = s.direction_ing := by
  cases r with
  | none => rfl
  | some rf =>
      show (if f.nat ∧ s.direction_ing ≠ 0 then
              if f.key.src_ipv4 ≠ rf.key.dst_ipv4 then
                { s with sourceip := rf.key.dst_ipv4 }
              else s
            else s).direction_ing = s.direction_ing
      by_cases h : f.nat ∧ s.direction_ing ≠ 0
      · rw [if_pos h]
        by_cases h2 : f.key.src_ipv4 ≠ rf.key.dst_ipv4
        · rw [if_pos h2]
        · rw [if_neg h2]
      · rw [if_neg h]

/-- `SourceIpOverride` leaves the flow UUID alone. -/
theorem sourceIpOverride_flowuuid (f : FlowEntry) (r : Option FlowEntry)
    (s : FlowDataIpv4) :
    (SourceIpOverride f r s).flowuuid = s.flowuuid := by
  cases r with
  | none => rfl
  | some rf =>
      show (if f.nat ∧ s.direction_ing ≠ 0 then
              if f.key.src_ipv4 ≠ rf.key.dst_ipv4 then
                { s with sourceip := rf.key.dst_ipv4 }
              else s
            else s).flowuuid = s.flowuuid
      by_cases h : f.nat ∧ s.direction_ing ≠ 0
      · rw [if_pos h]
        by_cases h2 : f.key.src_ipv4 ≠ rf.key.dst_ipv4
        · rw [if_pos h2]
        · rw [if_neg h2]
      · rw [if_neg h]

/-- On an ingress record carrying the flow's own source IP,
`SourceIpOverride` produces exactly the claimed source IP. -/
theorem sourceIpOverride_sourceip (f : FlowEntry) (r : Option FlowEntry)
    (s : FlowDataIpv4) (hsrc : s.sourceip = f.key.src_ipv4)
    (hdir : s.direction_ing = 1) :
    (SourceIpOverride f r s).sourceip = claimedSourceIp f r := by
  cases r with
  | none => exact hsrc
  | some rf =>
      show (if f.nat ∧ s.direction_ing ≠ 0 then
              if f.key.src_ipv4 ≠ rf.key.dst_ipv4 then
                { s with sourceip := rf.key.dst_ipv4 }
              else s
            else s).sourceip =
        (if f.nat ∧ f.key.src_ipv4 ≠ rf.key.dst_ipv4 then rf.key.dst_ipv4
         else f.key.src_ipv4)
      by_cases hnat : f.nat = true
      · have hcond : f.nat ∧ s.direction_ing ≠ 0 := ⟨hnat, by omega⟩
        rw [if_pos hcond]
        by_cases hip : f.key.src_ipv4 ≠ rf.key.dst_ipv4
        · rw [if_pos hip, if_pos ⟨hnat, hip⟩]
        · rw [if_neg hip, if_neg (by tauto), hsrc]
      · have hcond : ¬ (f.nat ∧ s.direction_ing ≠ 0) := by tauto
        rw [if_neg hcond, if_neg (by tauto), hsrc]

end FlowExportLemmas

/-- Claim C6: `FlowExport` on a local flow sends exactly two records —
the first with `direction_ing = 1`, the flow's primary UUID and the
NAT-overridden source IP, the second with `direction_ing = 0` and the
flow's `egress_uuid`; a non-local flow yields exactly one record, with
`direction_ing = 1` and the same NAT override when the flow is ingress,
and `direction_ing = 0` otherwise. -/
theorem flowExport_records (vmLookup : Nat → Option String)
    (flow : FlowEntry) (rev_flow : Option FlowEntry) (db dp : Nat) :
    (flow.local_flow = true →
      (FlowExport vmLookup flow rev_flow db dp).map
          FlowDataIpv4.direction_ing = [1, 0] ∧
      (FlowExport vmLookup flow rev_flow db dp).map FlowDataIpv4.flowuuid =
        [flow.flow_uuid, flow.egress_uuid] ∧
      ((FlowExport vmLookup flow rev_flow db dp).map
          FlowDataIpv4.sourceip).head? =
        some (claimedSourceIp flow rev_flow)) ∧
    (flow.local_flow = false →
      (flow.data.ingress = true →
        (FlowExport vmLookup flow rev_flow db dp).map
            FlowDataIpv4.direction_ing = [1] ∧
        (FlowExport vmLookup flow rev_flow db dp).map FlowDataIpv4.sourceip =
          [claimedSourceIp flow rev_flow]) ∧
      (flow.data.ingress = false →
        (FlowExport vmLookup flow rev_flow db dp).map
            FlowDataIpv4.direction_ing = [0] ∧
        (FlowExport vmLookup flow rev_flow db dp).map FlowDataIpv4.sourceip =
          [flow.key.src_ipv4]) ∧
      (FlowExport vmLookup flow rev_flow db dp).map FlowDataIpv4.flowuuid =
        [flow.flow_uuid]) := by
  constructor
  · intro hl
    simp only [FlowExport, hl, if_true, List.map, List.head?]
    refine ⟨?_, ?_, ?_⟩
    · rw [sourceIpOverride_direction_ing]
    · rw [sourceIpOverride_flowuuid]
    · rw [sourceIpOverride_sourceip flow rev_flow _ rfl rfl]
  · intro hl
    have hl' : flow.local_flow = true ↔ False := by simp [hl]
    refine ⟨?_, ?_, ?_⟩
    · intro hing
      simp only [FlowExport, hl, hing, Bool.false_eq_true, if_false, if_true,
        List.map]
      constructor
      · rw [sourceIpOverride_direction_ing]
      · rw [sourceIpOverride_sourceip flow rev_flow _ rfl rfl]
    · intro hing
      simp only [FlowExport, hl, hing, Bool.false_eq_true, if_false, List.map]
      exact ⟨trivial, trivial⟩
    · by_cases hing : flow.data.ingress = true
      · simp only [FlowExport, hl, hing, Bool.false_eq_true, if_false, if_true,
          List.map]
        rw [sourceIpOverride_flowuuid]
      · have hing' : flow.data.ingress = false := by
          cases h : flow.data.ingress
          · rfl
          · exact absurd h hing
        simp only [FlowExport, hl, hing', Bool.false_eq_true, if_false,
          List.map]

/-- A local NAT-ed flow (spec scenario 4: `key.src = 10.0.0.1`). -/
def localNatFlow : FlowEntry :=
  { baseFlow with
    key := { key0 with src_ipv4 := 0x0A000001, dst_ipv4 := 0x0A000002 }
    local_flow := true
    nat := true }

/-- The reverse flow of `localNatFlow` (`key.dst = 192.168.1.1`). -/
def localNatRevFlow : FlowEntry :=
  { baseFlow with
    key := { key0 with src_ipv4 := 0x0A000002, dst_ipv4 := 0xC0A80101 }
    flow_uuid := "uuid-rev" }

/-- Witness for `flowExport_records`: the local NAT-ed flow is exported
twice, ingress first with the NAT-translated source IP `192.168.1.1`. -/
theorem flowExport_records_witness :
    localNatFlow.local_flow = true ∧
      ((FlowExport (fun _ => none) localNatFlow (some localNatRevFlow) 3 2).map
          FlowDataIpv4.direction_ing = [1, 0] ∧
        (FlowExport (fun _ => none) localNatFlow (some localNatRevFlow) 3 2).map
            FlowDataIpv4.flowuuid =
          [localNatFlow.flow_uuid, localNatFlow.egress_uuid] ∧
        ((FlowExport (fun _ => none) localNatFlow (some localNatRevFlow) 3 2).map
            FlowDataIpv4.sourceip).head? =
          some (claimedSourceIp localNatFlow (some localNatRevFlow))) :=
  ⟨rfl,
    (flowExport_records (fun _ => none) localNatFlow (some localNatRevFlow)
        3 2).1 rfl⟩

section TaskPolicyModel

/-- A task exclusion policy: the ids of the task classes that may not run
concurrently with the policy's task (`TaskPolicy` as built by
`SetTaskPolicyOne`, one `TaskExclusion` per entry). -/
abbrev TaskPolicy := List Nat

/-- The slice of `TaskScheduler` state that `Agent::SetAgentTaskPolicy`
uses: the interning of task names to ids (`GetTaskId`) and the policies
installed by `SetPolicy`, in installation order. -/
structure TaskScheduler where
  getTaskId : String → Nat
  policies : List (Nat × TaskPolicy)

/-- `SetTaskPolicyOne` (`src/unnamed/part_000` 75-84): build a
`TaskPolicy` holding one `TaskExclusion` per excluded task name and
install it for `task` via `SetPolicy`. -/
def SetTaskPolicyOne (scheduler : TaskScheduler) (task : String)
    (exclude_list : List String) : TaskScheduler :=
  let policy := exclude_list.map scheduler.getTaskId
  { scheduler with
    policies := scheduler.policies ++ [(scheduler.getTaskId task, policy)] }

/-- `Agent::SetAgentTaskPolicy` (`src/unnamed/part_000` 86-142). -/
def Agent.SetAgentTaskPolicy (s : TaskScheduler) : TaskScheduler :=
  let s := SetTaskPolicyOne s "db::DBTable"
    ["Agent::FlowHandler", "Agent::Services", "Agent::StatsCollector",
     "sandesh::RecvQueue", "io::ReaderTask", "Agent::Uve", "Agent::KSync"]
  let s := SetTaskPolicyOne s "Agent::FlowHandler"
    ["Agent::StatsCollector", "io::ReaderTask"]
  let s := SetTaskPolicyOne s "sandesh::RecvQueue"
    ["db::DBTable", "Agent::FlowHandler", "Agent::Services",
     "Agent::StatsCollector", "io::ReaderTask"]
  let s := SetTaskPolicyOne s "bgp::Config"
    ["Agent::FlowHandler", "Agent::Services", "Agent::StatsCollector",
     "sandesh::RecvQueue", "io::ReaderTask", "xmpp::StateMachine",
     "db::DBTable"]
  let s := SetTaskPolicyOne s "xmpp::StateMachine"
    ["io::ReaderTask", "db::DBTable"]
  SetTaskPolicyOne s "Agent::KSync"
    ["Agent::FlowHandler", "Agent::StatsCollector", "db::DBTable"]

end TaskPolicyModel

/-- Claim C7: `Agent::SetAgentTaskPolicy` installs exactly the six
exclusion policies of the spec's table — for `db::DBTable`,
`Agent::FlowHandler`, `sandesh::RecvQueue`, `bgp::Config`,
`xmpp::StateMachine` and `Agent::KSync`, each with exactly the listed
excluded task classes — and nothing else (the task-name interning is left
untouched). -/
theorem setAgentTaskPolicy_installs_exact_table (s : TaskScheduler) :
    (Agent.SetAgentTaskPolicy s).policies = s.policies ++
      [(s.getTaskId "db::DBTable",
        [s.getTaskId "Agent::FlowHandler", s.getTaskId "Agent::Services",
         s.getTaskId "Agent::StatsCollector", s.getTaskId "sandesh::RecvQueue",
         s.getTaskId "io::ReaderTask", s.getTaskId "Agent::Uve",
         s.getTaskId "Agent::KSync"]),
       (s.getTaskId "Agent::FlowHandler",
        [s.getTaskId "Agent::StatsCollector", s.getTaskId "io::ReaderTask"]),
       (s.getTaskId "sandesh::RecvQueue",
        [s.getTaskId "db::DBTable", s.getTaskId "Agent::FlowHandler",
         s.getTaskId "Agent::Services", s.getTaskId "Agent::StatsCollector",
         s.getTaskId "io::ReaderTask"]),
       (s.getTaskId "bgp::Config",
        [s.getTaskId "Agent::FlowHandler", s.getTaskId "Agent::Services",
         s.getTaskId "Agent::StatsCollector", s.getTaskId "sandesh::RecvQueue",
         s.getTaskId "io::ReaderTask", s.getTaskId "xmpp::StateMachine",
         s.getTaskId "db::DBTable"]),
       (s.getTaskId "xmpp::StateMachine",
        [s.getTaskId "io::ReaderTask", s.getTaskId "db::DBTable"]),
       (s.getTaskId "Agent::KSync",
        [s.getTaskId "Agent::FlowHandler", s.getTaskId "Agent::StatsCollector",
         s.getTaskId "db::DBTable"])] ∧
    (Agent.SetAgentTaskPolicy s).getTaskId = s.getTaskId := by
  constructor
  · simp [Agent.SetAgentTaskPolicy, SetTaskPolicyOne]
  · rfl

section VrfDeleteModel

/-- A snapshot of the `VrfEntry` state visible to its delete-path hooks:
route-table sizes and the reference count. -/
structure VrfEntrySnapshot where
  unicast_routes : Nat
  multicast_routes : Nat
  layer2_routes : Nat
  refcount : Nat
deriving DecidableEq

/-- Delete-lifecycle state of a `VrfEntry`: whether its `LifetimeActor`
has been marked delete-pending, whether the delete timeout timer is
running, and whether the process has aborted.  `LifetimeActor::Delete`
(base/lifetime.h) and `TimerManager` are not part of this repository;
modelled from the spec: "`Delete()` marks it pending" and "on `Delete`,
the table starts a bounded timer". -/
structure VrfDeleteState where
  lifetime_pending : Bool
  timer_running : Bool
  aborted : Bool
deriving DecidableEq

/-- `VrfTable::Delete` (vrf.cc 434-439): `deleter_->Delete()` marks the
lifetime actor pending and `StartDeleteTimer()` (vrf.cc 350-357) starts
the bounded delete timer with handler `VrfEntry::DeleteTimeout`; the
object log is a side effect. -/
def VrfTable.Delete (s : VrfDeleteState) : VrfDeleteState :=
  { s with lifetime_pending := true, timer_running := true }

/-- `VrfEntry::DeleteTimeout` (vrf.cc 339-348): the delete-timer handler;
fires when the timer expires before the entry retires, logs the
unicast/multicast/layer2 route counts and the reference count, and
`assert(0)` aborts the process. -/
def VrfEntry.DeleteTimeout (snapshot : VrfEntrySnapshot)
    (s : VrfDeleteState) : VrfEntrySnapshot × VrfDeleteState :=
  (snapshot, { s with aborted := true })

/-- `VrfTable::OnZeroRefcount` (vrf.cc 455-467): when the refcount of a
deleted entry drops to zero the entry retires — its route tables and name
mapping are removed (side effects on the table, not modelled here) and
`CancelDeleteTimer()` stops the delete timer.  A non-deleted entry is
left alone. -/
def VrfTable.OnZeroRefcount (deleted : Bool) (s : VrfDeleteState) :
    VrfDeleteState :=
  if deleted then { s with timer_running := false } else s

end VrfDeleteModel

/-- Claim C8: `VrfTable::Delete` marks the entry's lifetime actor pending
and starts the delete timer; if the timer fires first,
`VrfEntry::DeleteTimeout` logs the unicast/multicast/layer2 route counts
and the reference count and aborts the process; if the entry retires
first, `VrfTable::OnZeroRefcount` on the deleted entry cancels the timer
and does not abort. -/
theorem vrf_delete_timer_lifecycle (s : VrfDeleteState)
    (snapshot : VrfEntrySnapshot) :
    (VrfTable.Delete s).lifetime_pending = true ∧
    (VrfTable.Delete s).timer_running = true ∧
    (VrfEntry.DeleteTimeout snapshot (VrfTable.Delete s)).1 = snapshot ∧
    (VrfEntry.DeleteTimeout snapshot (VrfTable.Delete s)).2.aborted = true ∧
    (VrfTable.OnZeroRefcount true (VrfTable.Delete s)).timer_running = false ∧
    (VrfTable.OnZeroRefcount true (VrfTable.Delete s)).aborted = s.aborted := by
  refine ⟨rfl, rfl, rfl, rfl, ?_, ?_⟩ <;>
    simp [VrfTable.OnZeroRefcount, VrfTable.Delete]

section VrfInputModel

/-- The slice of a `VrfEntry` that `VrfTable::Input` and
`VrfTable::CanNotify` inspect: its name (the key) and the deleted
flag. -/
structure VrfEntryM where
  name : String
  deleted : Bool
deriving DecidableEq

/-- `DBTablePartition::Find` by key: the entry with the request's name,
deleted entries included. -/
def findVrf (entries : List VrfEntryM) (name : String) : Option VrfEntryM :=
  entries.find? (fun e => e.name = name)

/-- The two `DBRequest` operations (`DB_ENTRY_ADD_CHANGE` /
`DB_ENTRY_DELETE`). -/
inductive DBOper
  | addChange
  | delete
deriving DecidableEq

/-- `VrfTable::Input` (vrf.cc 629-643): when the request's key resolves
to an existing entry whose deleted flag is set, return without invoking
`AgentDBTable::Input`.  The base-class input (outside this translation
unit) is passed as the `baseInput` continuation, so "no effect" holds for
every possible base behaviour. -/
def VrfTable.Input
    (baseInput : List VrfEntryM → DBOper → String → List VrfEntryM)
    (partition : List VrfEntryM) (oper : DBOper) (key : String) :
    List VrfEntryM :=
  match findVrf partition key with
  | some entry =>
      if entry.deleted then partition else baseInput partition oper key
  | none => baseInput partition oper key

/-- `VrfTable::CanNotify` (vrf.cc 645-656): config notifications for an
IFMap node whose VRF entry exists (`Find` with deleted entries included)
and is marked deleted are suppressed. -/
def VrfTable.CanNotify (table : List VrfEntryM) (nodeName : String) : Bool :=
  match findVrf table nodeName with
  | some entry => if entry.deleted then false else true
  | none => true

end VrfInputModel

/-- Claim C9: for every DB request (ADD_OR_UPDATE or DELETE) whose key
resolves to an existing deleted-but-not-retired VRF entry,
`VrfTable::Input` returns without invoking the base table input — the
table state is unchanged for every possible base behaviour — and
`VrfTable::CanNotify` returns false for such an entry. -/
theorem vrfTable_input_ignores_deleted
    (baseInput : List VrfEntryM → DBOper → String → List VrfEntryM)
    (partition : List VrfEntryM) (oper : DBOper) (key : String)
    (entry : VrfEntryM) (hfind : findVrf partition key = some entry)
    (hdel : entry.deleted = true) :
    VrfTable.Input baseInput partition oper key = partition ∧
      VrfTable.CanNotify partition key = false := by
  unfold VrfTable.Input VrfTable.CanNotify
  rw [hfind]
  simp [hdel]

/-- Witness for `vrfTable_input_ignores_deleted`: a DELETE request for a
deleted-but-not-retired entry `vrf-a` is a no-op even under a base input
that would mutate the partition, and config notification is
suppressed. -/
theorem vrfTable_input_ignores_deleted_witness :
    (findVrf [⟨"vrf-a", true⟩] "vrf-a" = some ⟨"vrf-a", true⟩ ∧
      (⟨"vrf-a", true⟩ : VrfEntryM).deleted = true) ∧
    (VrfTable.Input (fun st _ _ => st ++ [⟨"vrf-b", false⟩])
        [⟨"vrf-a", true⟩] DBOper.delete "vrf-a" = [⟨"vrf-a", true⟩] ∧
      VrfTable.CanNotify [⟨"vrf-a", true⟩] "vrf-a" = false) :=
  ⟨⟨by decide, rfl⟩,
    vrfTable_input_ignores_deleted (fun st _ _ => st ++ [⟨"vrf-b", false⟩])
      [⟨"vrf-a", true⟩] DBOper.delete "vrf-a" ⟨"vrf-a", true⟩ (by decide) rfl⟩

/-- `VrfEntry::DeleteActor::MayDelete` (vrf.cc 39-42): returns `true`
unconditionally, whatever the entry's route-table sizes or refcount (the
source comment "No route entry present, then this VRF can be deleted"
notwithstanding, no emptiness condition is checked). -/
def VrfEntry.DeleteActor.MayDelete : VrfEntrySnapshot → Bool := fun _ => true

/-- Claim C10: `MayDelete()` returns true for every `VrfEntry` in every
state — route tables non-empty included — so the lifetime manager's
retirement condition (refcount zero AND `MayDelete()`) degenerates to the
reference count alone: retirement is gated solely by the refcount
reaching zero. -/
theorem mayDelete_unconditional :
    (∀ s : VrfEntrySnapshot, VrfEntry.DeleteActor.MayDelete s = true) ∧
    (∀ s : VrfEntrySnapshot,
      (s.refcount = 0 ∧ VrfEntry.DeleteActor.MayDelete s = true) ↔
        s.refcount = 0) := by
  constructor
  · intro s
    rfl
  · intro s
    simp [VrfEntry.DeleteActor.MayDelete]

section AgingPassModel

/-- The environment an aging pass reads: the kernel flow table
(`FlowTableKSyncObject::GetKernelFlowEntry`, ksync code outside this
repository; modelled from the spec as a partial map from flow handles to
kernel records), the pass timestamp `UTCTimestampUsec()`, the configured
`GetFlowAgeTime()` and `flow_count_per_pass_`. -/
structure AgingEnv where
  kernel : Nat → Option VrFlowStats
  curr_time : Nat
  flow_age_time : Nat
  flow_count_per_pass : Nat

/-- Lookup in the flow-entry map by key (the C++ map holds the entries of
`FlowTable::flow_entry_map_`; a reverse-flow pointer is resolved by key
lookup here). -/
def lookupFlow (state : List FlowEntry) (k : FlowKey) : Option FlowEntry :=
  state.find? (fun e => decide (e.key = k))

/-- Erase every entry with the given key from the flow-entry map. -/
def removeKey (state : List FlowEntry) (k : FlowKey) : List FlowEntry :=
  state.filter (fun e => decide (e.key ≠ k))

/-- Modelled from the spec: `FlowTable::DeleteRevFlow`
(pkt/flowtable, not part of this repository) — on aging, "delete both (as
one action)": remove the flow with the given key and, when `rev` is set,
also the flow its reverse link points to. -/
def DeleteRevFlow (state : List FlowEntry) (k : FlowKey) (rev : Bool) :
    List FlowEntry :=
  match lookupFlow state k with
  | none => state
  | some e =>
      let s1 := removeKey state k
      if rev then
        match e.data.reverse_flow with
        | some rk => removeKey s1 rk
        | none => s1
      else s1

/-- The reverse flow of a visited entry
(`entry->data.reverse_flow.get()`), resolved through the map.  A reverse
pointer whose target has already been erased from the map is modelled as
an absent reverse flow. -/
def revLookup (state : List FlowEntry) (entry : FlowEntry) :
    Option FlowEntry :=
  match entry.data.reverse_flow with
  | none => none
  | some rk => lookupFlow state rk

/-- The aging decision for one visited entry (vrf.cc 920-935): the entry
is deleted when it should be aged and — if a reverse flow is present —
the reverse flow should be aged as well. -/
def agingDeleted (env : AgingEnv) (state : List FlowEntry)
    (entry : FlowEntry) : Bool :=
  if ShouldBeAged entry (env.kernel entry.flow_handle) env.curr_time
      env.flow_age_time then
    match revLookup state entry with
    | some reverse_flow =>
        ShouldBeAged reverse_flow (env.kernel reverse_flow.flow_handle)
          env.curr_time env.flow_age_time
    | none => true
  else false

/-- The stats-reconciliation effect of one visit on the flow map
(vrf.cc 954-974): when the kernel record at the visited entry's handle is
present, the visited entry is updated in place by `reconcileEntry`;
otherwise nothing changes. -/
def reconcileState (env : AgingEnv) (state : List FlowEntry)
    (entry : FlowEntry) : List FlowEntry :=
  match env.kernel entry.flow_handle with
  | some kf =>
      state.map (fun x =>
        if x.key = entry.key then reconcileEntry x kf env.curr_time else x)
  | none => state

/-- The body of one loop iteration of `FlowStatsCollector::Run`
(vrf.cc 910-985) on the visited `entry`: paired aging deletion
(vrf.cc 937-952), stats reconciliation when not deleted and the kernel
record is present (vrf.cc 954-974), and the short-flow shortcut
(vrf.cc 976-979, `DeleteRevFlow(entry->key, false)`).  Returns the new
map and whether the iteration counted twice (a pair deletion increments
`count` both inside the deletion branch and at the loop bottom). -/
def visitOne (env : AgingEnv) (state : List FlowEntry) (entry : FlowEntry) :
    List FlowEntry × Bool :=
  if agingDeleted env state entry then
    (DeleteRevFlow state entry.key (revLookup state entry).isSome,
      (revLookup state entry).isSome)
  else
    if entry.short_flow then
      (removeKey (reconcileState env state entry) entry.key, false)
    else (reconcileState env state entry, false)

/-- Is `k` past the last-visited key (`map::upper_bound` reachability)?
`none` stands for "start at the beginning". -/
def nextAfter (itKey : Option FlowKey) (k : FlowKey) : Bool :=
  match itKey with
  | none => true
  | some i => FlowKey.lt i k

/-- Fold step selecting the entry with the smallest key. -/
def pickOlder (acc : Option FlowEntry) (x : FlowEntry) : Option FlowEntry :=
  match acc with
  | none => some x
  | some a => if FlowKey.lt x.key a.key then some x else some a

/-- The next entry an aging pass visits: the entry with the smallest key
strictly past the last-visited key.  This models the `std::map` iterator
position of `Run`: after visiting key `k`, the iterator stands at the
successor of `k` in the (possibly shrunken) map, so erased entries —
including a deleted reverse flow, which the C++ `it++` guard skips only
to keep the iterator valid — are never revisited. -/
def nextEntry (state : List FlowEntry) (itKey : Option FlowKey) :
    Option FlowEntry :=
  (state.filter (fun e => nextAfter itKey e.key)).foldl pickOlder none

/-- The visit loop of `FlowStatsCollector::Run` (vrf.cc 910-985),
returning the final flow map and the keys visited, in order.  `count`
mirrors the C++ `count`: a pair deletion increments it twice, checking
`count == flow_count_per_pass_` after each increment; any other visit
increments it once.  `fuel` only bounds the recursion; since every visit
strictly increases the iteration key within the keys of the shrinking
map, `initial length + 1` steps are never exhausted. -/
def goPass (env : AgingEnv) :
    Nat → List FlowEntry → Option FlowKey → Nat →
      List FlowEntry × List FlowKey
  | 0, state, _, _ => (state, [])
  | fuel + 1, state, itKey, count =>
    match nextEntry state itKey with
    | none => (state, [])
    | some entry =>
        if (visitOne env state entry).2 then
          if count + 1 = env.flow_count_per_pass ∨
              count + 2 = env.flow_count_per_pass then
            ((visitOne env state entry).1, [entry.key])
          else
            ((goPass env fuel (visitOne env state entry).1 (some entry.key)
                (count + 2)).1,
              entry.key ::
                (goPass env fuel (visitOne env state entry).1 (some entry.key)
                  (count + 2)).2)
        else
          if count + 1 = env.flow_count_per_pass then
            ((visitOne env state entry).1, [entry.key])
          else
            ((goPass env fuel (visitOne env state entry).1 (some entry.key)
                (count + 1)).1,
              entry.key ::
                (goPass env fuel (visitOne env state entry).1 (some entry.key)
                  (count + 1)).2)

/-- Where a pass starts (vrf.cc 905-908): at the successor of the
last-visited key, wrapping to the beginning when nothing lies past it
(`flow_iteration_key_` is `none` right after a reset). -/
def startKey (state : List FlowEntry) (flow_iteration_key : Option FlowKey) :
    Option FlowKey :=
  match flow_iteration_key with
  | none => none
  | some k => if (nextEntry state (some k)).isSome then some k else none

/-- One aging pass, `FlowStatsCollector::Run` (vrf.cc 892-1017): nothing
happens on an empty flow table (vrf.cc 901-903); otherwise the visit loop
runs from the start position.  The trailing pacing recomputation
(vrf.cc 997-1016) does not touch the flow map and is not needed by the
claims settled here. -/
def FlowStatsCollector.Run (env : AgingEnv) (state : List FlowEntry)
    (flow_iteration_key : Option FlowKey) :
    List FlowEntry × List FlowKey :=
  if state.isEmpty then (state, [])
  else goPass env (state.length + 1) state (startKey state flow_iteration_key) 0

/-- Does the flow map still hold an entry with the given key?
(`deleted(F)` at the end of a pass is `hasKey final F.key = false`.) -/
def hasKey (state : List FlowEntry) (k : FlowKey) : Bool :=
  state.any (fun e => decide (e.key = k))

end AgingPassModel

section AgingPassLemmas

/-- A successful map lookup returns a member carrying the looked-up
key. -/
theorem lookupFlow_eq_some {s : List FlowEntry} {k : FlowKey}
    {e : FlowEntry} (h : lookupFlow s k = some e) : e ∈ s ∧ e.key = k := by
  refine ⟨List.mem_of_find?_eq_some h, ?_⟩
  have := List.find?_some h
  simpa using this

/-- A key present in the map is found by `lookupFlow`. -/
theorem lookupFlow_isSome_of_hasKey {s : List FlowEntry} {k : FlowKey}
    (h : hasKey s k = true) : (lookupFlow s k).isSome = true := by
  cases hl : lookupFlow s k with
  | some e => rfl
  | none =>
      exfalso
      have h' : ∃ e, e ∈ s ∧ e.key = k := by
        simpa [hasKey, List.any_eq_true] using h
      obtain ⟨e, he, hk⟩ := h'
      unfold lookupFlow at hl
      rw [List.find?_eq_none] at hl
      have := hl e he
      simp at this
      exact this hk

/-- Membership in `removeKey`. -/
theorem mem_removeKey {s : List FlowEntry} {k : FlowKey} {x : FlowEntry} :
    x ∈ removeKey s k ↔ x ∈ s ∧ x.key ≠ k := by
  simp [removeKey, List.mem_filter]

/-- Introducing `hasKey` from a member. -/
theorem hasKey_intro {s : List FlowEntry} {e : FlowEntry} {k : FlowKey}
    (he : e ∈ s) (hk : e.key = k) : hasKey s k = true := by
  simp only [hasKey, List.any_eq_true, decide_eq_true_eq]
  exact ⟨e, he, hk⟩

/-- Erasing another key does not change the presence of a key. -/
theorem hasKey_removeKey_ne {s : List FlowEntry} {k k2 : FlowKey}
    (h : k2 ≠ k) : hasKey (removeKey s k) k2 = hasKey s k2 := by
  rw [Bool.eq_iff_iff]
  simp only [hasKey, List.any_eq_true, decide_eq_true_eq]
  constructor
  · rintro ⟨e, he, hk⟩
    exact ⟨e, (mem_removeKey.mp he).1, hk⟩
  · rintro ⟨e, he, hk⟩
    exact ⟨e, mem_removeKey.mpr ⟨he, by rw [hk]; exact h⟩, hk⟩

/-- The erased key is gone. -/
theorem hasKey_removeKey_self (s : List FlowEntry) (k : FlowKey) :
    hasKey (removeKey s k) k = false := by
  show (removeKey s k).any _ = false
  rw [List.any_eq_false]
  intro x hx
  simp only [decide_eq_true_eq]
  exact (mem_removeKey.mp hx).2

/-- `reconcileEntry` does not change the key. -/
theorem reconcileEntry_key (fe : FlowEntry) (kf : VrFlowStats) (t : Nat) :
    (reconcileEntry fe kf t).key = fe.key := by
  unfold reconcileEntry
  split <;> rfl

/-- `reconcileEntry` does not change the reverse-flow link. -/
theorem reconcileEntry_reverse (fe : FlowEntry) (kf : VrFlowStats) (t : Nat) :
    (reconcileEntry fe kf t).data.reverse_flow = fe.data.reverse_flow := by
  unfold reconcileEntry
  split <;> rfl

/-- `reconcileEntry` does not change the short-flow flag. -/
theorem reconcileEntry_short (fe : FlowEntry) (kf : VrFlowStats) (t : Nat) :
    (reconcileEntry fe kf t).short_flow = fe.short_flow := by
  unfold reconcileEntry
  split <;> rfl

/-- The fold step picks either the new element or keeps the
accumulator. -/
theorem pickOlder_eq (acc : Option FlowEntry) (x : FlowEntry) :
    pickOlder acc x = some x ∨ pickOlder acc x = acc := by
  unfold pickOlder
  cases acc with
  | none => exact Or.inl rfl
  | some a =>
      show (if FlowKey.lt x.key a.key = true then some x else some a) =
          some x ∨
        (if FlowKey.lt x.key a.key = true then some x else some a) = some a
      by_cases h : FlowKey.lt x.key a.key = true
      · rw [if_pos h]
        exact Or.inl rfl
      · rw [if_neg h]
        exact Or.inr rfl

/-- A `pickOlder` fold result is a member of the list or the initial
accumulator. -/
theorem foldl_pickOlder_mem :
    ∀ (l : List FlowEntry) (acc : Option FlowEntry) (e : FlowEntry),
      l.foldl pickOlder acc = some e → e ∈ l ∨ acc = some e := by
  intro l
  induction l with
  | nil =>
      intro acc e h
      exact Or.inr h
  | cons x xs ih =>
      intro acc e h
      rw [List.foldl_cons] at h
      rcases ih (pickOlder acc x) e h with hmem | hacc
      · exact Or.inl (List.mem_cons_of_mem x hmem)
      · rcases pickOlder_eq acc x with heq | heq
        · rw [heq] at hacc
          have : x = e := Option.some.inj hacc
          rw [← this]
          exact Or.inl (List.mem_cons_self x xs)
        · rw [heq] at hacc
          exact Or.inr hacc

/-- The next visited entry is in the map. -/
theorem nextEntry_mem {state : List FlowEntry} {itKey : Option FlowKey}
    {entry : FlowEntry} (h : nextEntry state itKey = some entry) :
    entry ∈ state := by
  unfold nextEntry at h
  rcases foldl_pickOlder_mem _ none entry h with hmem | hacc
  · exact (List.mem_filter.mp hmem).1
  · exact absurd hacc (by simp)

/-- The induction invariant for claim C5: `fk` and `gk` are the keys of
a symmetric non-short reverse pair, present or absent together; every
map entry carrying one of the two keys links to the other and is not a
short flow; no other map entry links to either key. -/
def PairInv (fk gk : FlowKey) (state : List FlowEntry) : Prop :=
  hasKey state fk = hasKey state gk ∧
  (∀ X ∈ state, X.key = fk →
      X.data.reverse_flow = some gk ∧ X.short_flow = false) ∧
  (∀ X ∈ state, X.key = gk →
      X.data.reverse_flow = some fk ∧ X.short_flow = false) ∧
  (∀ X ∈ state, X.key ≠ fk → X.key ≠ gk →
      X.data.reverse_flow ≠ some fk ∧ X.data.reverse_flow ≠ some gk)

/-- `PairInv` is symmetric in the two keys. -/
theorem pairInv_symm {fk gk : FlowKey} {s : List FlowEntry}
    (h : PairInv fk gk s) : PairInv gk fk s := by
  obtain ⟨h2, h3f, h3g, h4⟩ := h
  exact ⟨h2.symm, h3g, h3f,
    fun X hX hXg hXf => ⟨(h4 X hX hXf hXg).2, (h4 X hX hXf hXg).1⟩⟩

/-- Erasing a key other than the pair's keys preserves the invariant. -/
theorem pairInv_removeKey {fk gk k : FlowKey} {s : List FlowEntry}
    (hinv : PairInv fk gk s) (hkf : k ≠ fk) (hkg : k ≠ gk) :
    PairInv fk gk (removeKey s k) := by
  obtain ⟨h2, h3f, h3g, h4⟩ := hinv
  refine ⟨?_, ?_, ?_, ?_⟩
  · rw [hasKey_removeKey_ne (Ne.symm hkf), hasKey_removeKey_ne (Ne.symm hkg),
      h2]
  · intro X hX hXk
    exact h3f X (mem_removeKey.mp hX).1 hXk
  · intro X hX hXk
    exact h3g X (mem_removeKey.mp hX).1 hXk
  · intro X hX hXf hXg
    exact h4 X (mem_removeKey.mp hX).1 hXf hXg

/-- Erasing both keys of the pair preserves the invariant (both sides
become absent). -/
theorem pairInv_removePair {fk gk : FlowKey} {s : List FlowEntry}
    (hinv : PairInv fk gk s) (hne : fk ≠ gk) :
    PairInv fk gk (removeKey (removeKey s fk) gk) := by
  obtain ⟨h2, h3f, h3g, h4⟩ := hinv
  refine ⟨?_, ?_, ?_, ?_⟩
  · rw [hasKey_removeKey_ne hne, hasKey_removeKey_self,
      hasKey_removeKey_self]
  · intro X hX hXk
    exact h3f X (mem_removeKey.mp (mem_removeKey.mp hX).1).1 hXk
  · intro X hX hXk
    exact h3g X (mem_removeKey.mp (mem_removeKey.mp hX).1).1 hXk
  · intro X hX hXf hXg
    exact h4 X (mem_removeKey.mp (mem_removeKey.mp hX).1).1 hXf hXg

/-- The in-place stats update of a visit preserves the invariant: keys,
reverse links and short-flags are untouched. -/
theorem pairInv_map_update {fk gk : FlowKey} {s : List FlowEntry}
    (kf : VrFlowStats) (t : Nat) (k0 : FlowKey) (hinv : PairInv fk gk s) :
    PairInv fk gk
      (s.map (fun x => if x.key = k0 then reconcileEntry x kf t else x)) := by
  obtain ⟨h2, h3f, h3g, h4⟩ := hinv
  have hkey : ∀ x : FlowEntry,
      (if x.key = k0 then reconcileEntry x kf t else x).key = x.key := by
    intro x
    by_cases h : x.key = k0
    · rw [if_pos h, reconcileEntry_key]
    · rw [if_neg h]
  have hrev : ∀ x : FlowEntry,
      (if x.key = k0 then reconcileEntry x kf t else x).data.reverse_flow =
        x.data.reverse_flow := by
    intro x
    by_cases h : x.key = k0
    · rw [if_pos h, reconcileEntry_reverse]
    · rw [if_neg h]
  have hshort : ∀ x : FlowEntry,
      (if x.key = k0 then reconcileEntry x kf t else x).short_flow =
        x.short_flow := by
    intro x
    by_cases h : x.key = k0
    · rw [if_pos h, reconcileEntry_short]
    · rw [if_neg h]
  have hh : ∀ k, hasKey
      (s.map (fun x => if x.key = k0 then reconcileEntry x kf t else x)) k =
      hasKey s k := by
    intro k
    simp only [hasKey, List.any_map]
    congr 1
    funext x
    simp only [Function.comp]
    rw [hkey x]
  refine ⟨?_, ?_, ?_, ?_⟩
  · rw [hh, hh, h2]
  · intro X hX hXk
    obtain ⟨x0, hx0, hgx⟩ := List.mem_map.mp hX
    have he := h3f x0 hx0 (by rw [← hkey x0, hgx, hXk])
    refine ⟨?_, ?_⟩
    · rw [← hgx, hrev x0]
      exact he.1
    · rw [← hgx, hshort x0]
      exact he.2
  · intro X hX hXk
    obtain ⟨x0, hx0, hgx⟩ := List.mem_map.mp hX
    have he := h3g x0 hx0 (by rw [← hkey x0, hgx, hXk])
    refine ⟨?_, ?_⟩
    · rw [← hgx, hrev x0]
      exact he.1
    · rw [← hgx, hshort x0]
      exact he.2
  · intro X hX hXf hXg
    obtain ⟨x0, hx0, hgx⟩ := List.mem_map.mp hX
    have he := h4 x0 hx0 (by rw [← hkey x0, hgx]; exact hXf)
      (by rw [← hkey x0, hgx]; exact hXg)
    refine ⟨?_, ?_⟩
    · rw [← hgx, hrev x0]
      exact he.1
    · rw [← hgx, hrev x0]
      exact he.2

/-- The reconciliation effect preserves the invariant. -/
theorem pairInv_reconcileState (env : AgingEnv) {fk gk : FlowKey}
    {s : List FlowEntry} (entry : FlowEntry) (hinv : PairInv fk gk s) :
    PairInv fk gk (reconcileState env s entry) := by
  unfold reconcileState
  cases env.kernel entry.flow_handle with
  | none => exact hinv
  | some kf => exact pairInv_map_update kf env.curr_time entry.key hinv

/-- `DeleteRevFlow` with the reverse flag removes the entry's key and its
reverse link's key. -/
theorem deleteRevFlow_some_rev {s : List FlowEntry} {k rk : FlowKey}
    {e : FlowEntry} (hl : lookupFlow s k = some e)
    (hrev : e.data.reverse_flow = some rk) :
    DeleteRevFlow s k true = removeKey (removeKey s k) rk := by
  unfold DeleteRevFlow
  rw [hl]
  show (match e.data.reverse_flow with
        | some rk2 => removeKey (removeKey s k) rk2
        | none => removeKey s k) = removeKey (removeKey s k) rk
  rw [hrev]

/-- `DeleteRevFlow` with the reverse flag but no reverse link on the
found entry removes only the entry's key. -/
theorem deleteRevFlow_true_noRev {s : List FlowEntry} {k : FlowKey}
    {e : FlowEntry} (hl : lookupFlow s k = some e)
    (hrev : e.data.reverse_flow = none) :
    DeleteRevFlow s k true = removeKey s k := by
  unfold DeleteRevFlow
  rw [hl]
  show (match e.data.reverse_flow with
        | some rk2 => removeKey (removeKey s k) rk2
        | none => removeKey s k) = removeKey s k
  rw [hrev]

/-- `DeleteRevFlow` without the reverse flag removes only the entry's
key. -/
theorem deleteRevFlow_false {s : List FlowEntry} {k : FlowKey}
    {e : FlowEntry} (hl : lookupFlow s k = some e) :
    DeleteRevFlow s k false = removeKey s k := by
  unfold DeleteRevFlow
  rw [hl]
  rfl

/-- One loop iteration preserves the invariant, whatever entry is
visited. -/
theorem visitOne_inv (env : AgingEnv) {fk gk : FlowKey}
    {state : List FlowEntry} (entry : FlowEntry) (hne : fk ≠ gk)
    (hinv : PairInv fk gk state) (hmem : entry ∈ state) :
    PairInv fk gk (visitOne env state entry).1 := by
  unfold visitOne
  by_cases hd : agingDeleted env state entry = true
  · rw [if_pos hd]
    show PairInv fk gk
      (DeleteRevFlow state entry.key (revLookup state entry).isSome)
    have hsome : (lookupFlow state entry.key).isSome = true :=
      lookupFlow_isSome_of_hasKey (hasKey_intro hmem rfl)
    obtain ⟨e0, he0⟩ := Option.isSome_iff_exists.mp hsome
    obtain ⟨he0mem, he0key⟩ := lookupFlow_eq_some he0
    by_cases hef : entry.key = fk
    · have hrevE := hinv.2.1 e0 he0mem (he0key.trans hef)
      have hflag : (revLookup state entry).isSome = true := by
        unfold revLookup
        rw [(hinv.2.1 entry hmem hef).1]
        exact lookupFlow_isSome_of_hasKey
          (by rw [← hinv.1]; exact hasKey_intro hmem hef)
      rw [hef] at he0
      rw [hflag, hef, deleteRevFlow_some_rev he0 hrevE.1]
      exact pairInv_removePair hinv hne
    · by_cases heg : entry.key = gk
      · have hrevE := hinv.2.2.1 e0 he0mem (he0key.trans heg)
        have hflag : (revLookup state entry).isSome = true := by
          unfold revLookup
          rw [(hinv.2.2.1 entry hmem heg).1]
          exact lookupFlow_isSome_of_hasKey
            (by rw [hinv.1]; exact hasKey_intro hmem heg)
        rw [heg] at he0
        rw [hflag, heg, deleteRevFlow_some_rev he0 hrevE.1]
        exact pairInv_symm (pairInv_removePair (pairInv_symm hinv) (Ne.symm hne))
      · have h4e := hinv.2.2.2 e0 he0mem (by rw [he0key]; exact hef)
          (by rw [he0key]; exact heg)
        cases hb : (revLookup state entry).isSome with
        | false =>
            rw [deleteRevFlow_false he0]
            exact pairInv_removeKey hinv hef heg
        | true =>
            cases hrev0 : e0.data.reverse_flow with
            | none =>
                rw [deleteRevFlow_true_noRev he0 hrev0]
                exact pairInv_removeKey hinv hef heg
            | some rk =>
                rw [deleteRevFlow_some_rev he0 hrev0]
                have hrkf : rk ≠ fk := by
                  intro h
                  rw [h] at hrev0
                  exact h4e.1 hrev0
                have hrkg : rk ≠ gk := by
                  intro h
                  rw [h] at hrev0
                  exact h4e.2 hrev0
                exact pairInv_removeKey (pairInv_removeKey hinv hef heg)
                  hrkf hrkg
  · rw [if_neg hd]
    by_cases hsf : entry.short_flow = true
    · rw [if_pos hsf]
      show PairInv fk gk (removeKey (reconcileState env state entry) entry.key)
      have hef : entry.key ≠ fk := by
        intro h
        have := (hinv.2.1 entry hmem h).2
        rw [hsf] at this
        simp at this
      have heg : entry.key ≠ gk := by
        intro h
        have := (hinv.2.2.1 entry hmem h).2
        rw [hsf] at this
        simp at this
      exact pairInv_removeKey (pairInv_reconcileState env entry hinv) hef heg
    · rw [if_neg hsf]
      show PairInv fk gk (reconcileState env state entry)
      exact pairInv_reconcileState env entry hinv

/-- The whole visit loop preserves the invariant. -/
theorem goPass_inv (env : AgingEnv) (fk gk : FlowKey) (hne : fk ≠ gk) :
    ∀ (fuel : Nat) (state : List FlowEntry) (itKey : Option FlowKey)
      (count : Nat), PairInv fk gk state →
      PairInv fk gk (goPass env fuel state itKey count).1 := by
  intro fuel
  induction fuel with
  | zero =>
      intro state itKey count hinv
      exact hinv
  | succ fuel ih =>
      intro state itKey count hinv
      cases hne2 : nextEntry state itKey with
      | none =>
          simp only [goPass, hne2]
          exact hinv
      | some entry =>
          have hmem := nextEntry_mem hne2
          have hv := visitOne_inv env entry hne hinv hmem
          simp only [goPass, hne2]
          by_cases hdbl : (visitOne env state entry).2 = true
          · rw [if_pos hdbl]
            by_cases hbreak : count + 1 = env.flow_count_per_pass ∨
                count + 2 = env.flow_count_per_pass
            · rw [if_pos hbreak]
              exact hv
            · rw [if_neg hbreak]
              exact ih _ _ _ hv
          · rw [if_neg hdbl]
            by_cases hbreak : count + 1 = env.flow_count_per_pass
            · rw [if_pos hbreak]
              exact hv
            · rw [if_neg hbreak]
              exact ih _ _ _ hv

end AgingPassLemmas

/-- A short flow with a reverse link, for the C5 counterexample. -/
def shortFlowEx : FlowEntry :=
  { baseFlow with
    key := ⟨1, 0, 0, 0, 0⟩
    short_flow := true
    data := { baseFlow.data with reverse_flow := some ⟨2, 0, 0, 0, 0⟩ } }

/-- The (non-short) reverse flow of `shortFlowEx`. -/
def partnerFlowEx : FlowEntry :=
  { baseFlow with
    key := ⟨2, 0, 0, 0, 0⟩
    flow_uuid := "uuid-partner"
    data := { baseFlow.data with reverse_flow := some ⟨1, 0, 0, 0, 0⟩ } }

/-- An environment in which no flow is aging-eligible (pass runs at the
flows' last-modified time). -/
def idleEnv : AgingEnv :=
  { kernel := fun _ => none, curr_time := 0, flow_age_time := 10,
    flow_count_per_pass := 100 }

/-- Claim C5 (counterexample): `deleted(F) ⇔ deleted(G)` does NOT hold
for every reverse pair visited by an aging pass.  `shortFlowEx` has
reverse flow `partnerFlowEx`; the pass visits both (their keys are the
visited list); neither is aging-eligible, but the short-flow shortcut
(vrf.cc 976-979) deletes the short flow alone via
`DeleteRevFlow(entry->key, false)`: at the end of the pass the short flow
is gone and its partner is still present. -/
theorem aging_pass_short_flow_counterexample :
    shortFlowEx.data.reverse_flow = some partnerFlowEx.key ∧
    (FlowStatsCollector.Run idleEnv [shortFlowEx, partnerFlowEx] none).2 =
      [shortFlowEx.key, partnerFlowEx.key] ∧
    hasKey (FlowStatsCollector.Run idleEnv [shortFlowEx, partnerFlowEx]
        none).1 shortFlowEx.key = false ∧
    hasKey (FlowStatsCollector.Run idleEnv [shortFlowEx, partnerFlowEx]
        none).1 partnerFlowEx.key = true := by
  refine ⟨by decide, by decide, by decide, by decide⟩

/-- Claim C5 (amended): in every aging pass, a flow that is aging-eligible
and has a reverse flow is deleted through the aging path only together
with that reverse flow, as one action.  Consequently, for flows F and G
with symmetric reverse links (F.reverse_flow = G, G.reverse_flow = F,
reverse links symmetric across the whole table) NEITHER of which is a
short flow, at the end of any aging pass deleted(F) holds if and only if
deleted(G) holds — whether or not both were visited.  (A short flow is
deleted alone by the short-flow shortcut even when its partner survives,
which is the only way the claimed equivalence fails.) -/
theorem aging_pass_pair_deletion (env : AgingEnv) (state : List FlowEntry)
    (fik : Option FlowKey) (F G : FlowEntry)
    (hF : F ∈ state) (hG : G ∈ state) (hkey : F.key ≠ G.key)
    (hFrev : F.data.reverse_flow = some G.key)
    (hGrev : G.data.reverse_flow = some F.key)
    (hFshort : F.short_flow = false) (hGshort : G.short_flow = false)
    (hnodup : (state.map FlowEntry.key).Nodup)
    (hsym : ∀ X ∈ state, ∀ Y ∈ state,
        X.data.reverse_flow = some Y.key →
        Y.data.reverse_flow = some X.key) :
    hasKey (FlowStatsCollector.Run env state fik).1 F.key =
      hasKey (FlowStatsCollector.Run env state fik).1 G.key := by
  have huniq := List.inj_on_of_nodup_map hnodup
  have hinv : PairInv F.key G.key state := by
    refine ⟨?_, ?_, ?_, ?_⟩
    · rw [hasKey_intro hF rfl, hasKey_intro hG rfl]
    · intro X hX hXk
      have hXF : X = F := huniq hX hF hXk
      rw [hXF]
      exact ⟨hFrev, hFshort⟩
    · intro X hX hXk
      have hXG : X = G := huniq hX hG hXk
      rw [hXG]
      exact ⟨hGrev, hGshort⟩
    · intro X hX hXf hXg
      constructor
      · intro hcon
        have hs := hsym X hX F hF hcon
        rw [hFrev] at hs
        exact hXg (Option.some.inj hs).symm
      · intro hcon
        have hs := hsym X hX G hG hcon
        rw [hGrev] at hs
        exact hXf (Option.some.inj hs).symm
  unfold FlowStatsCollector.Run
  by_cases hempty : state.isEmpty = true
  · rw [if_pos hempty]
    exact hinv.1
  · rw [if_neg hempty]
    exact (goPass_inv env F.key G.key hkey (state.length + 1) state
      (startKey state fik) 0 hinv).1

/-- One side of a symmetric non-short reverse pair, for the C5
witness. -/
def pairFlowC : FlowEntry :=
  { baseFlow with
    key := ⟨3, 0, 0, 0, 0⟩
    data := { baseFlow.data with reverse_flow := some ⟨4, 0, 0, 0, 0⟩ } }

/-- The other side of the pair. -/
def pairFlowD : FlowEntry :=
  { baseFlow with
    key := ⟨4, 0, 0, 0, 0⟩
    flow_uuid := "uuid-pair"
    data := { baseFlow.data with reverse_flow := some ⟨3, 0, 0, 0, 0⟩ } }

/-- An environment in which every idle flow is aging-eligible. -/
def agedEnv : AgingEnv :=
  { kernel := fun _ => none, curr_time := 1000000, flow_age_time := 10,
    flow_count_per_pass := 100 }

/-- Witness for `aging_pass_pair_deletion` on a concrete symmetric
non-short pair (both aged and deleted together by the pass). -/
theorem aging_pass_pair_deletion_witness :
    (pairFlowC ∈ [pairFlowC, pairFlowD] ∧
      pairFlowD ∈ [pairFlowC, pairFlowD] ∧
      pairFlowC.key ≠ pairFlowD.key ∧
      pairFlowC.data.reverse_flow = some pairFlowD.key ∧
      pairFlowD.data.reverse_flow = some pairFlowC.key ∧
      pairFlowC.short_flow = false ∧ pairFlowD.short_flow = false ∧
      (([pairFlowC, pairFlowD]).map FlowEntry.key).Nodup ∧
      (∀ X ∈ [pairFlowC, pairFlowD], ∀ Y ∈ [pairFlowC, pairFlowD],
        X.data.reverse_flow = some Y.key →
        Y.data.reverse_flow = some X.key)) ∧
    hasKey (FlowStatsCollector.Run agedEnv [pairFlowC, pairFlowD] none).1
        pairFlowC.key =
      hasKey (FlowStatsCollector.Run agedEnv [pairFlowC, pairFlowD] none).1
        pairFlowD.key :=
  ⟨⟨by decide, by decide, by decide, by decide, by decide, by decide,
      by decide, by decide, by decide⟩,
    aging_pass_pair_deletion agedEnv [pairFlowC, pairFlowD] none pairFlowC
      pairFlowD (by decide) (by decide) (by decide) (by decide) (by decide)
      (by decide) (by decide) (by decide) (by decide)⟩

end Contrail
